import Mathlib

/-!
Verification development for the layered configuration store of `config.go`
(a thin wrapper over an external configuration library).

The Go file `src/config.go` is a binding layer: every operation forwards to
the underlying library (`git_config_get_string`, `git_config_set_multivar`,
`git_config_open_level`, ...) whose code is not part of this repository.
The behavior of those calls is therefore modelled from the specification
(`spec.md`, sections 3, 4.2, 4.3 and 7); each such definition carries a
doc comment starting with `Modelled from the spec:`.  The facts that are
visible in the wrapper itself — which arguments are consulted, the
`(zeroValue, error)` return convention on failure, the unguarded `Free` —
are embedded directly from the Go source.
-/

/-- Precedence levels of the registry.  Mirrors the source constants
`ConfigLevelSystem`, `ConfigLevelXDG`, `ConfigLevelGlobal`,
`ConfigLevelLocal`, `ConfigLevelApp` (`sys`/`xdg`/`glb`/`lcl`/`app`).
The sentinel `ConfigLevelHighest` is a query convenience, not a slot,
and is not part of the registry model. -/
inductive ConfigLevel : Type
  | sys : ConfigLevel
  | xdg : ConfigLevel
  | glb : ConfigLevel
  | lcl : ConfigLevel
  | app : ConfigLevel
deriving DecidableEq, Repr

/-- Lower-case folding of one ASCII character. -/
def charLower (c : Char) : Char :=
  if 65 ≤ c.toNat && c.toNat ≤ 90 then Char.ofNat (c.toNat + 32) else c

/-- Modelled from the spec: names are case-insensitive dotted paths, so the
backend compares keys after ASCII case folding. -/
def normName (s : String) : String := String.mk (s.data.map charLower)

/-- Key comparison used by every backend operation. -/
def keyEq (a b : String) : Bool := normName a == normName b

/-- Modelled from the spec: one backing store.  Every value is stored as
text; a multivar name holds an ordered list of values (a plain name holds a
singleton list). -/
structure Backend : Type where
  entries : List (String × List String)
deriving DecidableEq, Repr

/-- First entry whose key matches, as the full ordered value list. -/
def entriesGet : List (String × List String) → String → Option (List String)
  | [], _ => none
  | (k, vs) :: rest, name => if keyEq k name then some vs else entriesGet rest name

/-- Replace the value list of the first matching entry, appending a new
entry when the name is absent (stable order). -/
def entriesSet : List (String × List String) → String → List String → List (String × List String)
  | [], name, vs => [(name, vs)]
  | (k, ws) :: rest, name, vs =>
    if keyEq k name then (k, vs) :: rest else (k, ws) :: entriesSet rest name vs

/-- Remove every entry for the name. -/
def entriesDel (es : List (String × List String)) (name : String) : List (String × List String) :=
  es.filter (fun e => ! keyEq e.1 name)

/-- Modelled from the spec: raw single-value read.  On a multivar the most
recently added (last) value is the one a single-value lookup observes. -/
def backendGet (b : Backend) (name : String) : Option String :=
  (entriesGet b.entries name).bind List.getLast?

/-- Modelled from the spec: raw single-value write, storing exactly one
value for the name. -/
def backendSet (b : Backend) (name value : String) : Backend :=
  ⟨entriesSet b.entries name [value]⟩

/-- Modelled from the spec: delete of a name inside one backend. -/
def backendDel (b : Backend) (name : String) : Backend :=
  ⟨entriesDel b.entries name⟩

/-- Modelled from the spec: minimal pattern matcher standing in for the
POSIX regular expressions the external library applies to multivar values.
It covers the forms the spec exercises: the empty pattern and `.*` match
every value; a pattern starting with `^` matches the values having the rest
of the pattern as a leading substring; any other pattern matches exactly
the values equal to it. -/
def charsLeadWith : List Char → List Char → Bool
  | [], _ => true
  | _ :: _, [] => false
  | c :: cs, d :: ds => c == d && charsLeadWith cs ds

/-- See the comment on `charsLeadWith` for the scope of this matcher. -/
def regexMatches (pat value : String) : Bool :=
  if pat = "" || pat = ".*" then true
  else
    match pat.data with
    | '^' :: rest => charsLeadWith rest value.data
    | _ => value == pat

/-- Modelled from the spec: `setMultivar` inside one backend.  Every
existing value matching the pattern is replaced by `value` in place; when
none matches, `value` is appended as a new last value; when the name is
absent it is created with the single value. -/
def backendSetMultivar (b : Backend) (name pat value : String) : Backend :=
  match entriesGet b.entries name with
  | none => ⟨b.entries ++ [(name, [value])]⟩
  | some vs =>
    if vs.any (fun v => regexMatches pat v) then
      ⟨entriesSet b.entries name (vs.map (fun v => if regexMatches pat v then value else v))⟩
    else
      ⟨entriesSet b.entries name (vs ++ [value])⟩

/-- The store of opened backends, addressed by handle id.  Backends are
shared by reference: two registry slots holding the same id see the same
data, which is how `OpenLevel` views alias their parent. -/
structure Heap : Type where
  store : List (Nat × Backend)
deriving DecidableEq, Repr

def heapGet (h : Heap) (i : Nat) : Option Backend :=
  match h.store.find? (fun e => e.1 == i) with
  | none => none
  | some e => some e.2

def heapSet (h : Heap) (i : Nat) (b : Backend) : Heap :=
  ⟨(i, b) :: h.store⟩

def freshId (h : Heap) : Nat :=
  (h.store.map (fun e => e.1)).foldr (fun a b => max a b) 0 + 1

/-- The multi-level container (`git_config` object): a registry mapping
each level to at most one backend id.  Mirrors `type Config struct`. -/
structure Config : Type where
  app : Option Nat
  lcl : Option Nat
  glb : Option Nat
  xdg : Option Nat
  sys : Option Nat
deriving DecidableEq, Repr

/-- The backend id bound at a level. -/
def Config.backendAt (c : Config) : ConfigLevel → Option Nat
  | .app => c.app
  | .lcl => c.lcl
  | .glb => c.glb
  | .xdg => c.xdg
  | .sys => c.sys

/-- Modelled from the spec: resolution queries levels strictly from most
specific to least specific: App, Local, Global, XDG, System. -/
def levelsInOrder : List ConfigLevel := [.app, .lcl, .glb, .xdg, .sys]

/-- Left-biased choice. -/
def orO {α : Type} : Option α → Option α → Option α
  | some a, _ => some a
  | none, o => o

/-- The value a single level contributes for a name: its bound backend's
single-value read, `none` when the level is unbound or the backend
dangles. -/
def levelHit (h : Heap) (c : Config) (L : ConfigLevel) (name : String) : Option String :=
  match c.backendAt L with
  | none => none
  | some i =>
    match heapGet h i with
    | none => none
    | some b => backendGet b name

/-- Resolution over a list of levels: first hit wins. -/
def getRawAux (h : Heap) (c : Config) (name : String) : List ConfigLevel → Option String
  | [] => none
  | L :: Ls => orO (levelHit h c L name) (getRawAux h c name Ls)

/-- Modelled from the spec: aggregate read — first hit in the fixed
App → Local → Global → XDG → System order. -/
def getRaw (h : Heap) (c : Config) (name : String) : Option String :=
  getRawAux h c name levelsInOrder

/-- First bound backend id over a list of levels. -/
def writeTargetAux (c : Config) : List ConfigLevel → Option Nat
  | [] => none
  | L :: Ls => orO (c.backendAt L) (writeTargetAux c Ls)

/-- Modelled from the spec: writes go to the aggregate's default target,
the most specific bound level; writing never creates new levels. -/
def writeTarget (c : Config) : Option Nat :=
  writeTargetAux c levelsInOrder

/-- Modelled from the spec (section 7): the error taxonomy surfaced to
callers. -/
inductive GitError : Type
  | notFound : GitError
  | parseError : GitError
  | invalidArg : GitError
  | backendError : GitError
deriving DecidableEq, Repr

instance {e a : Type} [DecidableEq e] [DecidableEq a] : DecidableEq (Except e a) := fun x y =>
  match x, y with
  | .ok v, .ok w => if h : v = w then isTrue (by rw [h]) else isFalse (by simp [h])
  | .error v, .error w => if h : v = w then isTrue (by rw [h]) else isFalse (by simp [h])
  | .ok _, .error _ => isFalse (fun hh => Except.noConfusion hh)
  | .error _, .ok _ => isFalse (fun hh => Except.noConfusion hh)

/-- Modelled from the spec: raw aggregate write through the default
target. -/
def setRaw (h : Heap) (c : Config) (name value : String) : Except GitError Heap :=
  match writeTarget c with
  | none => .error .invalidArg
  | some i =>
    match heapGet h i with
    | none => .error .backendError
    | some b => .ok (heapSet h i (backendSet b name value))

/-- Modelled from the spec: `Delete` removes the name at the default
target level and fails with NotFound when it is absent there. -/
def deleteRaw (h : Heap) (c : Config) (name : String) : Except GitError Heap :=
  match writeTarget c with
  | none => .error .invalidArg
  | some i =>
    match heapGet h i with
    | none => .error .backendError
    | some b =>
      match backendGet b name with
      | none => .error .notFound
      | some _ => .ok (heapSet h i (backendDel b name))

/-- Modelled from the spec: `SetMultivar` routed to the default target. -/
def setMultivarRaw (h : Heap) (c : Config) (name pat value : String) : Except GitError Heap :=
  match writeTarget c with
  | none => .error .invalidArg
  | some i =>
    match heapGet h i with
    | none => .error .backendError
    | some b => .ok (heapSet h i (backendSetMultivar b name pat value))

/-- Little-endian base-10 digits of `n`, with `fuel ≥ n` making the
recursion structural. -/
def natDigitsAux : Nat → Nat → List Nat
  | 0, _ => []
  | _ + 1, 0 => []
  | fuel + 1, n + 1 => (n + 1) % 10 :: natDigitsAux fuel ((n + 1) / 10)

/-- Little-endian base-10 digits of `n` (empty for 0). -/
def natDigits (n : Nat) : List Nat := natDigitsAux n n

/-- Value of a little-endian digit list. -/
def digitsVal : List Nat → Nat
  | [] => 0
  | d :: ds => d + 10 * digitsVal ds

/-- The character of one decimal digit. -/
def digitChar (d : Nat) : Char := Char.ofNat (48 + d)

/-- The decimal digit of a character, when it is one. -/
def charDigit (c : Char) : Option Nat :=
  if 48 ≤ c.toNat && c.toNat ≤ 57 then some (c.toNat - 48) else none

/-- Read every character as a digit, failing on the first non-digit. -/
def mapDigits : List Char → Option (List Nat)
  | [] => some []
  | c :: cs =>
    match charDigit c, mapDigits cs with
    | some d, some ds => some (d :: ds)
    | _, _ => none

/-- Canonical decimal rendering of a natural number. -/
def renderNat (n : Nat) : String :=
  if n = 0 then "0" else String.mk (((natDigits n).map digitChar).reverse)

/-- Parse a nonempty all-digit character list, most significant first. -/
def parseDigitsVal (cs : List Char) : Option Nat :=
  match mapDigits cs with
  | none => none
  | some ds => if ds.isEmpty then none else some (digitsVal ds.reverse)

/-- Modelled from the spec: integer text accepted by the typed accessor
layer — base-10 digits with an optional leading minus sign. -/
def parseInt (s : String) : Option Int :=
  match s.data with
  | [] => none
  | c :: cs =>
    if c = '-' then (parseDigitsVal cs).map (fun n => -(n : Int))
    else (parseDigitsVal (c :: cs)).map (fun n => (n : Int))

/-- Modelled from the spec: canonical decimal rendering of an integer,
used by the typed writers before storing. -/
def renderInt (i : Int) : String :=
  if i < 0 then String.mk ('-' :: (renderNat i.natAbs).data) else renderNat i.toNat

/-- Modelled from the spec: conversion of stored text to a 32-bit
integer; non-numeric text and overflow of the target width are parse
errors. -/
def int32OfText (s : String) : Except GitError Int :=
  match parseInt s with
  | none => .error .parseError
  | some n => if -(2 ^ 31) ≤ n ∧ n < 2 ^ 31 then .ok n else .error .parseError

/-- Modelled from the spec: conversion of stored text to a 64-bit
integer. -/
def int64OfText (s : String) : Except GitError Int :=
  match parseInt s with
  | none => .error .parseError
  | some n => if -(2 ^ 63) ≤ n ∧ n < 2 ^ 63 then .ok n else .error .parseError

/-- Modelled from the spec: boolean text forms, `true/yes/on/1` and
`false/no/off/0`. -/
def parseBool (s : String) : Option Bool :=
  if s = "true" || s = "yes" || s = "on" || s = "1" then some true
  else if s = "false" || s = "no" || s = "off" || s = "0" then some false
  else none

/-- Modelled from the spec: conversion of stored text to a boolean. -/
def boolOfText (s : String) : Except GitError Bool :=
  match parseBool s with
  | none => .error .parseError
  | some b => .ok b

/-- `LookupString`: resolve and return the text as is. -/
def lookupString (h : Heap) (c : Config) (name : String) : Except GitError String :=
  match getRaw h c name with
  | none => .error .notFound
  | some s => .ok s

/-- `LookupInt32`: resolve, then convert with the 32-bit rules. -/
def lookupInt32 (h : Heap) (c : Config) (name : String) : Except GitError Int :=
  match getRaw h c name with
  | none => .error .notFound
  | some s => int32OfText s

/-- `LookupInt64`: resolve, then convert with the 64-bit rules. -/
def lookupInt64 (h : Heap) (c : Config) (name : String) : Except GitError Int :=
  match getRaw h c name with
  | none => .error .notFound
  | some s => int64OfText s

/-- `LookupBool`: resolve, then convert with the boolean rules. -/
def lookupBool (h : Heap) (c : Config) (name : String) : Except GitError Bool :=
  match getRaw h c name with
  | none => .error .notFound
  | some s => boolOfText s

/-- `SetString`. -/
def setString (h : Heap) (c : Config) (name value : String) : Except GitError Heap :=
  setRaw h c name value

/-- `SetInt32`: stores the canonical decimal text.  A Go `int32` argument
is an integer in `[-2^31, 2^31)`. -/
def setInt32 (h : Heap) (c : Config) (name : String) (value : Int) : Except GitError Heap :=
  setRaw h c name (renderInt value)

/-- `SetInt64`: stores the canonical decimal text. -/
def setInt64 (h : Heap) (c : Config) (name : String) (value : Int) : Except GitError Heap :=
  setRaw h c name (renderInt value)

/-- `SetBool`: stores the canonical boolean text. -/
def setBool (h : Heap) (c : Config) (name : String) (value : Bool) : Except GitError Heap :=
  setRaw h c name (if value then "true" else "false")

/-- The Go wrapper's return convention, from the source: on failure the
pair is the zero value together with the error, on success the value
together with no error (`return 0, LastError()` / `return int32(out), nil`). -/
def goPair {α : Type} (zero : α) (r : Except GitError α) : α × Option GitError :=
  match r with
  | .ok v => (v, none)
  | .error e => (zero, some e)

/-- `LookupInt32` as the Go function returns it: `(int32, error)`. -/
def goLookupInt32 (h : Heap) (c : Config) (name : String) : Int × Option GitError :=
  goPair 0 (lookupInt32 h c name)

/-- `LookupInt64` as the Go function returns it: `(int64, error)`. -/
def goLookupInt64 (h : Heap) (c : Config) (name : String) : Int × Option GitError :=
  goPair 0 (lookupInt64 h c name)

/-- `LookupString` as the Go function returns it: `(string, error)`. -/
def goLookupString (h : Heap) (c : Config) (name : String) : String × Option GitError :=
  goPair "" (lookupString h c name)

/-- `LookupBool` as the Go function returns it: `(bool, error)`. -/
def goLookupBool (h : Heap) (c : Config) (name : String) : Bool × Option GitError :=
  goPair false (lookupBool h c name)

/-- A registry with a single bound slot. -/
def singleLevel (L : ConfigLevel) (i : Nat) : Config :=
  match L with
  | .app => ⟨some i, none, none, none, none⟩
  | .lcl => ⟨none, some i, none, none, none⟩
  | .glb => ⟨none, none, some i, none, none⟩
  | .xdg => ⟨none, none, none, some i, none⟩
  | .sys => ⟨none, none, none, none, some i⟩

/-- Modelled from the spec: `git_config_open_level` — a narrowing view
holding only the backend bound at `L` in the parent, by the same backend
id (shared, not copied); it fails when the level is unbound. -/
def openLevelImpl (parent : Config) (L : ConfigLevel) : Except GitError Config :=
  match parent.backendAt L with
  | none => .error .notFound
  | some i => .ok (singleLevel L i)

/-- `Config.OpenLevel` from the source: the receiver is never consulted —
the call forwards only `parent.ptr` and `level` to the library. -/
def Config.OpenLevel (_c : Config) (parent : Config) (L : ConfigLevel) : Except GitError Config :=
  openLevelImpl parent L

/-- Rebind one slot of a registry. -/
def Config.setLevel (c : Config) (L : ConfigLevel) (i : Option Nat) : Config :=
  match L with
  | .app => { c with app := i }
  | .lcl => { c with lcl := i }
  | .glb => { c with glb := i }
  | .xdg => { c with xdg := i }
  | .sys => { c with sys := i }

/-- Modelled from the spec: `AddFile` validates that the path is nonempty,
rejects a conflicting binding when `force` is false, then opens the file
backend (`disk` stands for the opaque on-disk medium) and binds it at the
level.  Backend identity by path is not tracked, so the force=false
same-path no-op degenerates to a rejection. -/
def addFile (c : Config) (path : String) (L : ConfigLevel) (force : Bool)
    (disk : String → Option Backend) (h : Heap) : Except GitError (Config × Heap) :=
  if path = "" then .error .invalidArg
  else if (c.backendAt L).isSome && ! force then .error .invalidArg
  else
    match disk path with
    | none => .error .backendError
    | some b =>
      let i := freshId h
      .ok (c.setLevel L (some i), heapSet h i b)

/-- `OpenOndisk` from the source: the `parent` argument is never
consulted — the call forwards only the path.  Modelled from the spec: the
result holds exactly one file-backed backend in a fresh single slot. -/
def OpenOndisk (_parent : Option Config) (path : String)
    (disk : String → Option Backend) (h : Heap) : Except GitError (Config × Heap) :=
  match disk path with
  | none => .error .backendError
  | some b =>
    let i := freshId h
    .ok (singleLevel .app i, heapSet h i b)

/-- `Config.Free` from the source: it clears the finalizer and then
unconditionally calls `git_config_free` on the stored pointer; the pointer
is not cleared and no guard is checked.  The model records the pointer of
every release call the wrapper has issued, newest first. -/
def Config.Free (ptr : Nat) (releaseCalls : List Nat) : List Nat :=
  ptr :: releaseCalls

theorem keyEq_self (a : String) : keyEq a a = true := by
  simp [keyEq]

theorem entriesGet_set_self (es : List (String × List String)) (name : String)
    (vs : List String) : entriesGet (entriesSet es name vs) name = some vs := by
  induction es with
  | nil => simp [entriesSet, entriesGet, keyEq_self]
  | cons e rest ih =>
    obtain ⟨k, ws⟩ := e
    by_cases hk : keyEq k name
    · simp [entriesSet, hk, entriesGet]
    · simp only [Bool.not_eq_true] at hk
      simp [entriesSet, hk, entriesGet, ih]

theorem entriesGet_del_self (es : List (String × List String)) (name : String) :
    entriesGet (entriesDel es name) name = none := by
  induction es with
  | nil => simp [entriesDel, entriesGet]
  | cons e rest ih =>
    obtain ⟨k, ws⟩ := e
    by_cases hk : keyEq k name
    · simpa [entriesDel, hk] using ih
    · simp only [Bool.not_eq_true] at hk
      simpa [entriesDel, entriesGet, hk] using ih

theorem backendGet_set_self (b : Backend) (name value : String) :
    backendGet (backendSet b name value) name = some value := by
  simp [backendGet, backendSet, entriesGet_set_self, List.getLast?]

theorem backendGet_del_self (b : Backend) (name : String) :
    backendGet (backendDel b name) name = none := by
  simp [backendGet, backendDel, entriesGet_del_self]

theorem heapGet_set_self (h : Heap) (i : Nat) (b : Backend) :
    heapGet (heapSet h i b) i = some b := by
  simp [heapGet, heapSet, List.find?]

theorem heapGet_set_ne (h : Heap) (i j : Nat) (b : Backend) (hne : j ≠ i) :
    heapGet (heapSet h i b) j = heapGet h j := by
  have hij : (i == j) = false := by
    simp [beq_eq_false_iff_ne, Ne.symm hne]
  simp [heapGet, heapSet, List.find?, hij]

theorem getRawAux_all_miss (h : Heap) (c : Config) (name : String)
    (Ls : List ConfigLevel) (hmiss : ∀ L ∈ Ls, levelHit h c L name = none) :
    getRawAux h c name Ls = none := by
  induction Ls with
  | nil => rfl
  | cons L Ls ih =>
    have h1 : levelHit h c L name = none := hmiss L (by simp)
    have h2 : getRawAux h c name Ls = none := ih (fun L' hL' => hmiss L' (by simp [hL']))
    simp [getRawAux, h1, h2, orO]

theorem getRawAux_writeTarget (h : Heap) (c : Config) (name value : String)
    (i : Nat) (b : Backend) (Ls : List ConfigLevel)
    (hwt : writeTargetAux c Ls = some i) (hb : heapGet h i = some b)
    (hv : backendGet b name = some value) :
    getRawAux h c name Ls = some value := by
  induction Ls with
  | nil => simp [writeTargetAux] at hwt
  | cons L Ls ih =>
    cases hL : c.backendAt L with
    | none =>
      have hwt' : writeTargetAux c Ls = some i := by
        simpa [writeTargetAux, hL, orO] using hwt
      simp [getRawAux, levelHit, hL, orO, ih hwt']
    | some j =>
      have hji : j = i := by
        simpa [writeTargetAux, hL, orO] using hwt
      subst hji
      simp [getRawAux, levelHit, hL, hb, hv, orO]

theorem getRawAux_first_hit (h : Heap) (c : Config) (name value : String)
    (L : ConfigLevel) (pre post : List ConfigLevel)
    (hmiss : ∀ L' ∈ pre, levelHit h c L' name = none)
    (hhit : levelHit h c L name = some value) :
    getRawAux h c name (pre ++ L :: post) = some value := by
  induction pre with
  | nil => simp [getRawAux, hhit, orO]
  | cons P pre ih =>
    have h1 : levelHit h c P name = none := hmiss P (by simp)
    have h2 := ih (fun L' hL' => hmiss L' (by simp [hL']))
    simp [getRawAux, h1, orO, h2]

theorem digitsVal_natDigitsAux : ∀ fuel n, n ≤ fuel → digitsVal (natDigitsAux fuel n) = n := by
  intro fuel
  induction fuel with
  | zero =>
    intro n hn
    interval_cases n
    rfl
  | succ fuel ih =>
    intro n hn
    cases n with
    | zero => rfl
    | succ m =>
      have hdiv : (m + 1) / 10 ≤ fuel := by
        have : (m + 1) / 10 < m + 1 := Nat.div_lt_self (by omega) (by omega)
        omega
      simp only [natDigitsAux, digitsVal, ih _ hdiv]
      omega

theorem natDigitsAux_lt_ten : ∀ fuel n d, d ∈ natDigitsAux fuel n → d < 10 := by
  intro fuel
  induction fuel with
  | zero => intro n d hd; simp [natDigitsAux] at hd
  | succ fuel ih =>
    intro n d hd
    cases n with
    | zero => simp [natDigitsAux] at hd
    | succ m =>
      simp only [natDigitsAux, List.mem_cons] at hd
      rcases hd with hd | hd
      · subst hd; exact Nat.mod_lt _ (by omega)
      · exact ih _ _ hd

theorem natDigitsAux_ne_nil (fuel n : Nat) (hn : 0 < n) (hf : n ≤ fuel) :
    natDigitsAux fuel n ≠ [] := by
  cases fuel with
  | zero => omega
  | succ fuel =>
    cases n with
    | zero => omega
    | succ m => simp [natDigitsAux]

theorem charDigit_digitChar (d : Nat) (hd : d < 10) : charDigit (digitChar d) = some d := by
  interval_cases d <;> decide

theorem digitChar_ne_dash (d : Nat) (hd : d < 10) : digitChar d ≠ '-' := by
  interval_cases d <;> decide

theorem mapDigits_map_digitChar (l : List Nat) (hl : ∀ d ∈ l, d < 10) :
    mapDigits (l.map digitChar) = some l := by
  induction l with
  | nil => rfl
  | cons d ds ih =>
    have h1 : charDigit (digitChar d) = some d := charDigit_digitChar d (hl d (by simp))
    have h2 := ih (fun e he => hl e (by simp [he]))
    simp [mapDigits, h1, h2]

theorem parseDigitsVal_renderNat (n : Nat) :
    parseDigitsVal (renderNat n).data = some n := by
  by_cases hn : n = 0
  · subst hn; decide
  · have hlt : ∀ d ∈ (natDigits n).reverse, d < 10 := by
      intro d hd
      exact natDigitsAux_lt_ten n n d (List.mem_reverse.mp hd)
    have hne : natDigits n ≠ [] := natDigitsAux_ne_nil n n (by omega) (le_refl n)
    have hdata : (renderNat n).data = ((natDigits n).reverse.map digitChar) := by
      simp [renderNat, hn, List.map_reverse]
    rw [hdata, parseDigitsVal, mapDigits_map_digitChar _ hlt]
    have hrevne : (natDigits n).reverse ≠ [] := by
      simpa [List.reverse_eq_nil_iff] using hne
    have hval : digitsVal (natDigits n) = n := digitsVal_natDigitsAux n n (le_refl n)
    simp [List.isEmpty_iff, hrevne, List.reverse_reverse, hval]

theorem renderNat_no_dash (n : Nat) : ∀ c ∈ (renderNat n).data, c ≠ '-' := by
  by_cases hn : n = 0
  · subst hn; decide
  · intro c hc
    have hdata : (renderNat n).data = ((natDigits n).reverse.map digitChar) := by
      simp [renderNat, hn, List.map_reverse]
    rw [hdata] at hc
    obtain ⟨d, hd, rfl⟩ := List.mem_map.mp hc
    exact digitChar_ne_dash d (natDigitsAux_lt_ten n n d (List.mem_reverse.mp hd))

theorem renderNat_ne_nil (n : Nat) : (renderNat n).data ≠ [] := by
  by_cases hn : n = 0
  · subst hn; decide
  · have hne : natDigits n ≠ [] := natDigitsAux_ne_nil n n (by omega) (le_refl n)
    simp [renderNat, hn, List.map_reverse, List.reverse_eq_nil_iff, hne]

theorem parseInt_renderNat (n : Nat) : parseInt (renderNat n) = some (n : Int) := by
  cases hdata : (renderNat n).data with
  | nil => exact absurd hdata (renderNat_ne_nil n)
  | cons c cs =>
    have hdash : c ≠ '-' := renderNat_no_dash n c (by simp [hdata])
    have hval : parseDigitsVal (c :: cs) = some n := by
      rw [← hdata]; exact parseDigitsVal_renderNat n
    simp [parseInt, hdata, hdash, hval]

theorem parseInt_renderInt (i : Int) : parseInt (renderInt i) = some i := by
  by_cases hi : i < 0
  · have hval : parseDigitsVal (renderNat i.natAbs).data = some i.natAbs :=
      parseDigitsVal_renderNat i.natAbs
    have : parseInt (renderInt i) = some (-(i.natAbs : Int)) := by
      simp [renderInt, hi, parseInt, hval]
    rw [this]
    congr 1
    omega
  · have : renderInt i = renderNat i.toNat := by simp [renderInt, hi]
    rw [this, parseInt_renderNat]
    congr 1
    omega

theorem setRaw_ok (h : Heap) (c : Config) (i : Nat) (b : Backend) (name value : String)
    (hwt : writeTarget c = some i) (hb : heapGet h i = some b) :
    setRaw h c name value = .ok (heapSet h i (backendSet b name value)) := by
  simp [setRaw, hwt, hb]

theorem getRaw_after_setRaw (h : Heap) (c : Config) (i : Nat) (b : Backend)
    (name value : String) (hwt : writeTarget c = some i) :
    getRaw (heapSet h i (backendSet b name value)) c name = some value :=
  getRawAux_writeTarget _ c name value i _ levelsInOrder hwt
    (heapGet_set_self h i (backendSet b name value)) (backendGet_set_self b name value)

/-- C1: lookups resolve a name by querying levels strictly in the order
App, Local, Global, XDG, System and return the value found at the first
level that yields one; each typed lookup converts that same first-level
value.  In particular a name holding `"a"` at Global and `"b"` at Local
resolves to `"b"` (see the witness). -/
theorem c1_lookup_precedence (h : Heap) (c : Config) (name value : String)
    (L : ConfigLevel) (pre post : List ConfigLevel)
    (horder : levelsInOrder = pre ++ L :: post)
    (hmiss : ∀ L' ∈ pre, levelHit h c L' name = none)
    (hhit : levelHit h c L name = some value) :
    getRaw h c name = some value ∧
    lookupString h c name = .ok value ∧
    lookupInt32 h c name = int32OfText value ∧
    lookupInt64 h c name = int64OfText value ∧
    lookupBool h c name = boolOfText value := by
  have hraw : getRaw h c name = some value := by
    rw [getRaw, horder]
    exact getRawAux_first_hit h c name value L pre post hmiss hhit
  exact ⟨hraw, by simp [lookupString, hraw], by simp [lookupInt32, hraw],
    by simp [lookupInt64, hraw], by simp [lookupBool, hraw]⟩

/-- C1 witness: `"a"` at Global (backend 2), `"b"` at Local (backend 1);
`LookupString` returns `"b"`. -/
theorem c1_lookup_precedence_witness :
    lookupString (⟨[(1, ⟨[("k", ["b"])]⟩), (2, ⟨[("k", ["a"])]⟩)]⟩ : Heap)
      (⟨none, some 1, some 2, none, none⟩ : Config) "k" = .ok "b" :=
  (c1_lookup_precedence ⟨[(1, ⟨[("k", ["b"])]⟩), (2, ⟨[("k", ["a"])]⟩)]⟩
    ⟨none, some 1, some 2, none, none⟩ "k" "b" .lcl [.app] [.glb, .xdg, .sys]
    (by rfl) (by decide) (by decide)).2.1

/-- C2: for each supported type, a set followed by a lookup of the same
name on the same aggregate succeeds and returns exactly the value written
(both operations route to the aggregate's default target level). -/
theorem c2_set_lookup_roundtrip (h : Heap) (c : Config) (i : Nat) (b : Backend)
    (name : String) (hwt : writeTarget c = some i) (hb : heapGet h i = some b) :
    (∀ s : String, ∃ h', setString h c name s = .ok h' ∧
      lookupString h' c name = .ok s) ∧
    (∀ v : Int, -(2 ^ 31) ≤ v → v < 2 ^ 31 → ∃ h', setInt32 h c name v = .ok h' ∧
      lookupInt32 h' c name = .ok v) ∧
    (∀ v : Int, -(2 ^ 63) ≤ v → v < 2 ^ 63 → ∃ h', setInt64 h c name v = .ok h' ∧
      lookupInt64 h' c name = .ok v) ∧
    (∀ v : Bool, ∃ h', setBool h c name v = .ok h' ∧
      lookupBool h' c name = .ok v) := by
  refine ⟨fun s => ⟨_, setRaw_ok h c i b name s hwt hb, ?_⟩,
    fun v h1 h2 => ⟨_, setRaw_ok h c i b name (renderInt v) hwt hb, ?_⟩,
    fun v h1 h2 => ⟨_, setRaw_ok h c i b name (renderInt v) hwt hb, ?_⟩,
    fun v => ⟨_, setRaw_ok h c i b name (if v then "true" else "false") hwt hb, ?_⟩⟩
  · simp [lookupString, getRaw_after_setRaw h c i b name s hwt]
  · have hraw := getRaw_after_setRaw h c i b name (renderInt v) hwt
    norm_num at h1 h2
    simp [lookupInt32, hraw, int32OfText, parseInt_renderInt, h1, h2]
  · have hraw := getRaw_after_setRaw h c i b name (renderInt v) hwt
    norm_num at h1 h2
    simp [lookupInt64, hraw, int64OfText, parseInt_renderInt, h1, h2]
  · have hraw := getRaw_after_setRaw h c i b name (if v then "true" else "false") hwt
    cases v <;> simp_all [lookupBool, boolOfText, parseBool]

/-- C2 witness: round trips of `"hello"`, `-5`, `2^40` and `true` through
a single-level aggregate. -/
theorem c2_set_lookup_roundtrip_witness :
    (∃ h', setString ⟨[(1, ⟨[]⟩)]⟩ ⟨some 1, none, none, none, none⟩ "k" "hello" = .ok h' ∧
      lookupString h' ⟨some 1, none, none, none, none⟩ "k" = .ok "hello") ∧
    (∃ h', setInt32 ⟨[(1, ⟨[]⟩)]⟩ ⟨some 1, none, none, none, none⟩ "k" (-5) = .ok h' ∧
      lookupInt32 h' ⟨some 1, none, none, none, none⟩ "k" = .ok (-5)) ∧
    (∃ h', setInt64 ⟨[(1, ⟨[]⟩)]⟩ ⟨some 1, none, none, none, none⟩ "k" (2 ^ 40) = .ok h' ∧
      lookupInt64 h' ⟨some 1, none, none, none, none⟩ "k" = .ok (2 ^ 40)) ∧
    (∃ h', setBool ⟨[(1, ⟨[]⟩)]⟩ ⟨some 1, none, none, none, none⟩ "k" true = .ok h' ∧
      lookupBool h' ⟨some 1, none, none, none, none⟩ "k" = .ok true) := by
  have t := c2_set_lookup_roundtrip ⟨[(1, ⟨[]⟩)]⟩ ⟨some 1, none, none, none, none⟩ 1 ⟨[]⟩ "k"
    (by rfl) (by decide)
  exact ⟨t.1 "hello", t.2.1 (-5) (by norm_num) (by norm_num),
    t.2.2.1 (2 ^ 40) (by norm_num) (by norm_num), t.2.2.2 true⟩

/-- C3: `SetMultivar(name, regexp, value)` on an existing ordered value
list replaces in place every value matching the pattern, keeps the
non-matching values unchanged in stable order, and appends `value` as a
new entry when no existing value matches. -/
theorem c3_setMultivar_replace_or_append (h : Heap) (c : Config) (i : Nat) (b : Backend)
    (name pat value : String) (vs : List String)
    (hwt : writeTarget c = some i) (hb : heapGet h i = some b)
    (hvs : entriesGet b.entries name = some vs) :
    setMultivarRaw h c name pat value =
      .ok (heapSet h i (backendSetMultivar b name pat value)) ∧
    entriesGet (backendSetMultivar b name pat value).entries name =
      some (if vs.any (fun v => regexMatches pat v)
            then vs.map (fun v => if regexMatches pat v then value else v)
            else vs ++ [value]) := by
  constructor
  · simp [setMultivarRaw, hwt, hb]
  · by_cases hany : vs.any (fun v => regexMatches pat v)
    · simp [backendSetMultivar, hvs, hany, entriesGet_set_self]
    · simp only [Bool.not_eq_true] at hany
      simp [backendSetMultivar, hvs, hany, entriesGet_set_self]

/-- C3 witness: the spec's scenario — existing values `["x1","x2","z"]`,
pattern `"^x"`, value `"y"` yields `["y","y","z"]` in stable order. -/
theorem c3_setMultivar_replace_or_append_witness :
    setMultivarRaw (⟨[(1, ⟨[("k", ["x1", "x2", "z"])]⟩)]⟩ : Heap)
      (⟨some 1, none, none, none, none⟩ : Config) "k" "^x" "y" =
      .ok (heapSet ⟨[(1, ⟨[("k", ["x1", "x2", "z"])]⟩)]⟩ 1
        (backendSetMultivar ⟨[("k", ["x1", "x2", "z"])]⟩ "k" "^x" "y")) ∧
    entriesGet (backendSetMultivar ⟨[("k", ["x1", "x2", "z"])]⟩ "k" "^x" "y").entries "k" =
      some ["y", "y", "z"] := by
  have t := c3_setMultivar_replace_or_append ⟨[(1, ⟨[("k", ["x1", "x2", "z"])]⟩)]⟩
    ⟨some 1, none, none, none, none⟩ 1 ⟨[("k", ["x1", "x2", "z"])]⟩ "k" "^x" "y"
    ["x1", "x2", "z"] (by rfl) (by decide) (by decide)
  refine ⟨t.1, ?_⟩
  rw [t.2]
  decide

/-- C4: when the stored text at a name is not convertible to the requested
integer type — non-numeric text, or a value outside the target width —
the typed integer lookups fail with a ParseError rather than silently
succeeding with a zero value. -/
theorem c4_int_lookup_parse_error (h : Heap) (c : Config) (name s : String)
    (hraw : getRaw h c name = some s) :
    (parseInt s = none →
      lookupInt32 h c name = .error .parseError ∧
      lookupInt64 h c name = .error .parseError) ∧
    (∀ n : Int, parseInt s = some n → ¬(-(2 ^ 31) ≤ n ∧ n < 2 ^ 31) →
      lookupInt32 h c name = .error .parseError) ∧
    (∀ n : Int, parseInt s = some n → ¬(-(2 ^ 63) ≤ n ∧ n < 2 ^ 63) →
      lookupInt64 h c name = .error .parseError) := by
  refine ⟨fun hp => ⟨?_, ?_⟩, fun n hp hrange => ?_, fun n hp hrange => ?_⟩
  · simp [lookupInt32, hraw, int32OfText, hp]
  · simp [lookupInt64, hraw, int64OfText, hp]
  · norm_num at hrange
    simp [lookupInt32, hraw, int32OfText, hp]
    omega
  · norm_num at hrange
    simp [lookupInt64, hraw, int64OfText, hp]
    omega

/-- C4 witness: `"notanumber"` fails both integer lookups with ParseError;
`4294967296` (which exceeds 32-bit width) fails `LookupInt32` with
ParseError. -/
theorem c4_int_lookup_parse_error_witness :
    lookupInt32 (⟨[(1, ⟨[("n", ["notanumber"])]⟩)]⟩ : Heap)
      (⟨some 1, none, none, none, none⟩ : Config) "n" = .error .parseError ∧
    lookupInt64 (⟨[(1, ⟨[("n", ["notanumber"])]⟩)]⟩ : Heap)
      (⟨some 1, none, none, none, none⟩ : Config) "n" = .error .parseError ∧
    lookupInt32 (⟨[(1, ⟨[("n", ["4294967296"])]⟩)]⟩ : Heap)
      (⟨some 1, none, none, none, none⟩ : Config) "n" = .error .parseError := by
  have t1 := c4_int_lookup_parse_error ⟨[(1, ⟨[("n", ["notanumber"])]⟩)]⟩
    ⟨some 1, none, none, none, none⟩ "n" "notanumber" (by decide)
  have t2 := c4_int_lookup_parse_error ⟨[(1, ⟨[("n", ["4294967296"])]⟩)]⟩
    ⟨some 1, none, none, none, none⟩ "n" "4294967296" (by decide)
  have h1 := t1.1 (by decide)
  refine ⟨h1.1, h1.2, t2.2.1 4294967296 (by decide) ?_⟩
  norm_num

/-- C5 counterexample: with `"k"` bound at App (value `"x"`, backend 1)
and at Local (value `"y"`, backend 2), `Delete("k")` succeeds — it removes
the App entry — yet the subsequent `LookupString("k")` still succeeds with
`"y"` from Local instead of failing with NotFound. -/
theorem c5_delete_lookup_counterexample :
    deleteRaw (⟨[(1, ⟨[("k", ["x"])]⟩), (2, ⟨[("k", ["y"])]⟩)]⟩ : Heap)
      (⟨some 1, some 2, none, none, none⟩ : Config) "k" =
      .ok ⟨[(1, ⟨[]⟩), (1, ⟨[("k", ["x"])]⟩), (2, ⟨[("k", ["y"])]⟩)]⟩ ∧
    lookupString (⟨[(1, ⟨[]⟩), (1, ⟨[("k", ["x"])]⟩), (2, ⟨[("k", ["y"])]⟩)]⟩ : Heap)
      (⟨some 1, some 2, none, none, none⟩ : Config) "k" = .ok "y" := by
  decide

/-- C5 (amended): `Delete(name)` removes the entry at the default target
level and fails with NotFound when the name is absent there; a subsequent
`LookupString(name)` fails with NotFound provided no other bound level
still yields the name. -/
theorem c5_delete_amended (h : Heap) (c : Config) (i : Nat) (b : Backend) (name : String)
    (hwt : writeTarget c = some i) (hb : heapGet h i = some b) :
    (backendGet b name = none → deleteRaw h c name = .error .notFound) ∧
    (∀ v, backendGet b name = some v →
      (∀ L j b', c.backendAt L = some j → j ≠ i → heapGet h j = some b' →
        backendGet b' name = none) →
      deleteRaw h c name = .ok (heapSet h i (backendDel b name)) ∧
      lookupString (heapSet h i (backendDel b name)) c name = .error .notFound) := by
  constructor
  · intro habsent
    simp [deleteRaw, hwt, hb, habsent]
  · intro v hv hother
    refine ⟨by simp [deleteRaw, hwt, hb, hv], ?_⟩
    have hmiss : ∀ L ∈ levelsInOrder,
        levelHit (heapSet h i (backendDel b name)) c L name = none := by
      intro L _
      cases hL : c.backendAt L with
      | none => simp [levelHit, hL]
      | some j =>
        by_cases hj : j = i
        · subst hj
          simp [levelHit, hL, heapGet_set_self, backendGet_del_self]
        · have hgj := heapGet_set_ne h i j (backendDel b name) hj
          cases hg : heapGet h j with
          | none => simp [levelHit, hL, hgj, hg]
          | some b' => simp [levelHit, hL, hgj, hg, hother L j b' hL hj hg]
    have hraw : getRaw (heapSet h i (backendDel b name)) c name = none :=
      getRawAux_all_miss _ c name levelsInOrder hmiss
    simp [lookupString, hraw]

/-- C5 witness for the amended claim: deleting an absent name fails with
NotFound, and on a single-level aggregate a delete of a present name
succeeds and makes the subsequent string lookup fail with NotFound. -/
theorem c5_delete_amended_witness :
    deleteRaw (⟨[(1, ⟨[]⟩)]⟩ : Heap) (⟨some 1, none, none, none, none⟩ : Config) "k" =
      .error .notFound ∧
    deleteRaw (⟨[(1, ⟨[("k", ["v"])]⟩)]⟩ : Heap) (⟨some 1, none, none, none, none⟩ : Config) "k" =
      .ok (heapSet ⟨[(1, ⟨[("k", ["v"])]⟩)]⟩ 1 (backendDel ⟨[("k", ["v"])]⟩ "k")) ∧
    lookupString (heapSet ⟨[(1, ⟨[("k", ["v"])]⟩)]⟩ 1 (backendDel ⟨[("k", ["v"])]⟩ "k"))
      (⟨some 1, none, none, none, none⟩ : Config) "k" = .error .notFound := by
  have t1 := c5_delete_amended ⟨[(1, ⟨[]⟩)]⟩ ⟨some 1, none, none, none, none⟩ 1 ⟨[]⟩ "k"
    (by rfl) (by decide)
  have t2 := c5_delete_amended ⟨[(1, ⟨[("k", ["v"])]⟩)]⟩ ⟨some 1, none, none, none, none⟩ 1
    ⟨[("k", ["v"])]⟩ "k" (by rfl) (by decide)
  have hside : ∀ (L : ConfigLevel) (j : Nat) (b' : Backend),
      (⟨some 1, none, none, none, none⟩ : Config).backendAt L = some j → j ≠ 1 →
      heapGet ⟨[(1, ⟨[("k", ["v"])]⟩)]⟩ j = some b' → backendGet b' "k" = none := by
    intro L j b' hL hj hg
    cases L <;> simp [Config.backendAt] at hL
    simp_all
  have h2 := t2.2 "v" (by decide) hside
  exact ⟨t1.1 (by decide), h2.1, h2.2⟩

theorem writeTarget_singleLevel (L : ConfigLevel) (i : Nat) :
    writeTarget (singleLevel L i) = some i := by
  cases L <;> rfl

theorem backendAt_singleLevel_self (L : ConfigLevel) (i : Nat) :
    (singleLevel L i).backendAt L = some i := by
  cases L <;> rfl

theorem backendAt_singleLevel_ne (L L' : ConfigLevel) (i : Nat) (hne : L' ≠ L) :
    (singleLevel L i).backendAt L' = none := by
  cases L <;> cases L' <;> simp_all [singleLevel, Config.backendAt]

/-- C6: `OpenLevel` fails when the level is unbound in the parent; when the
level is bound to backend `i` it returns a view whose registry holds only
that level, bound to the same backend id (shared, not copied), and a write
through the view is observable at the parent's same-level lookup. -/
theorem c6_openLevel_view (c parent : Config) (L : ConfigLevel) :
    (parent.backendAt L = none → Config.OpenLevel c parent L = .error .notFound) ∧
    (∀ i, parent.backendAt L = some i →
      Config.OpenLevel c parent L = .ok (singleLevel L i) ∧
      (singleLevel L i).backendAt L = some i ∧
      (∀ L', L' ≠ L → (singleLevel L i).backendAt L' = none) ∧
      (∀ h b name value, heapGet h i = some b →
        setString h (singleLevel L i) name value =
          .ok (heapSet h i (backendSet b name value)) ∧
        levelHit (heapSet h i (backendSet b name value)) parent L name = some value)) := by
  constructor
  · intro hnone
    simp [Config.OpenLevel, openLevelImpl, hnone]
  · intro i hi
    refine ⟨by simp [Config.OpenLevel, openLevelImpl, hi], backendAt_singleLevel_self L i,
      fun L' hL' => backendAt_singleLevel_ne L L' i hL', fun h b name value hb => ⟨?_, ?_⟩⟩
    · exact setRaw_ok h (singleLevel L i) i b name value (writeTarget_singleLevel L i) hb
    · simp [levelHit, hi, heapGet_set_self, backendGet_set_self]

/-- C6 witness: on a parent with only Local bound (backend 5), opening the
unbound Global level fails, opening Local succeeds, and a write of
`("k","v")` through the view is visible at the parent's Local slot. -/
theorem c6_openLevel_view_witness :
    Config.OpenLevel (⟨none, none, none, none, none⟩ : Config)
      (⟨none, some 5, none, none, none⟩ : Config) .glb = .error .notFound ∧
    Config.OpenLevel (⟨none, none, none, none, none⟩ : Config)
      (⟨none, some 5, none, none, none⟩ : Config) .lcl = .ok (singleLevel .lcl 5) ∧
    setString (⟨[(5, ⟨[]⟩)]⟩ : Heap) (singleLevel .lcl 5) "k" "v" =
      .ok (heapSet ⟨[(5, ⟨[]⟩)]⟩ 5 (backendSet ⟨[]⟩ "k" "v")) ∧
    levelHit (heapSet ⟨[(5, ⟨[]⟩)]⟩ 5 (backendSet ⟨[]⟩ "k" "v"))
      (⟨none, some 5, none, none, none⟩ : Config) .lcl "k" = some "v" := by
  have tGlb := c6_openLevel_view ⟨none, none, none, none, none⟩
    ⟨none, some 5, none, none, none⟩ .glb
  have tLcl := c6_openLevel_view ⟨none, none, none, none, none⟩
    ⟨none, some 5, none, none, none⟩ .lcl
  have h5 := tLcl.2 5 (by rfl)
  have hw := h5.2.2.2 ⟨[(5, ⟨[]⟩)]⟩ ⟨[]⟩ "k" "v" (by decide)
  exact ⟨tGlb.1 (by rfl), h5.1, hw.1, hw.2⟩

/-- C7: `AddFile` with an empty path fails with InvalidArgument before any
backend is consulted, for every aggregate, level, force flag, disk state
and heap. -/
theorem c7_addFile_empty_path (c : Config) (L : ConfigLevel) (force : Bool)
    (disk : String → Option Backend) (h : Heap) :
    addFile c "" L force disk h = .error .invalidArg := by
  simp [addFile]

/-- C8 counterexample: after `Free` on pointer 1 the handle is already in
the released set, yet a second `Free` issues another release of the same
pointer — it is neither a no-op nor guarded. -/
theorem c8_double_free_counterexample :
    (1 : Nat) ∈ Config.Free 1 [] ∧
    Config.Free 1 (Config.Free 1 []) = [1, 1] ∧
    Config.Free 1 (Config.Free 1 []) ≠ Config.Free 1 [] := by
  decide

/-- C8 (amended): `Free` is unguarded — every call, including a repeated
one, issues `git_config_free` on the stored pointer, so releasing a Config
twice releases the same underlying handle twice (a double free) instead of
being idempotent or failing cleanly. -/
theorem c8_free_unguarded (ptr : Nat) (calls : List Nat) :
    Config.Free ptr calls = ptr :: calls ∧
    (Config.Free ptr (Config.Free ptr calls)).count ptr = calls.count ptr + 2 := by
  refine ⟨rfl, ?_⟩
  simp [Config.Free, List.count_cons]

/-- C9: `OpenLevel` never consults its receiver — any two receivers give
the same result for the same parent and level — and `OpenOndisk` never
consults its parent argument. -/
theorem c9_receiver_independent (c1 c2 parent : Config) (L : ConfigLevel)
    (p1 p2 : Option Config) (path : String) (disk : String → Option Backend) (h : Heap) :
    Config.OpenLevel c1 parent L = Config.OpenLevel c2 parent L ∧
    OpenOndisk p1 path disk h = OpenOndisk p2 path disk h :=
  ⟨rfl, rfl⟩

/-- C10 counterexample: a stored `"0"` (resp. `"false"`, `""`) is looked
up successfully, returning the zero value of the result type together with
a nil error — so "zero value exactly when a non-nil error" fails in the
only-if direction. -/
theorem c10_zero_iff_error_counterexample :
    goLookupInt32 (⟨[(1, ⟨[("k", ["0"]), ("s", [""]), ("b", ["false"])]⟩)]⟩ : Heap)
      (⟨some 1, none, none, none, none⟩ : Config) "k" = (0, none) ∧
    ¬((goLookupInt32 (⟨[(1, ⟨[("k", ["0"]), ("s", [""]), ("b", ["false"])]⟩)]⟩ : Heap)
        (⟨some 1, none, none, none, none⟩ : Config) "k").1 = 0 ↔
      (goLookupInt32 (⟨[(1, ⟨[("k", ["0"]), ("s", [""]), ("b", ["false"])]⟩)]⟩ : Heap)
        (⟨some 1, none, none, none, none⟩ : Config) "k").2 ≠ none) ∧
    goLookupBool (⟨[(1, ⟨[("k", ["0"]), ("s", [""]), ("b", ["false"])]⟩)]⟩ : Heap)
      (⟨some 1, none, none, none, none⟩ : Config) "b" = (false, none) ∧
    goLookupString (⟨[(1, ⟨[("k", ["0"]), ("s", [""]), ("b", ["false"])]⟩)]⟩ : Heap)
      (⟨some 1, none, none, none, none⟩ : Config) "s" = ("", none) := by
  decide

/-- C10 (amended): whenever a typed lookup returns a non-nil error the
accompanying value is the zero value of the result type; and whenever it
returns a nil error the value is the (possibly zero) successfully looked
up result. -/
theorem c10_zero_value_on_error (h : Heap) (c : Config) (name : String) :
    ((goLookupInt32 h c name).2 ≠ none → (goLookupInt32 h c name).1 = 0) ∧
    ((goLookupInt64 h c name).2 ≠ none → (goLookupInt64 h c name).1 = 0) ∧
    ((goLookupString h c name).2 ≠ none → (goLookupString h c name).1 = "") ∧
    ((goLookupBool h c name).2 ≠ none → (goLookupBool h c name).1 = false) ∧
    ((goLookupInt32 h c name).2 = none →
      lookupInt32 h c name = .ok (goLookupInt32 h c name).1) ∧
    ((goLookupInt64 h c name).2 = none →
      lookupInt64 h c name = .ok (goLookupInt64 h c name).1) ∧
    ((goLookupString h c name).2 = none →
      lookupString h c name = .ok (goLookupString h c name).1) ∧
    ((goLookupBool h c name).2 = none →
      lookupBool h c name = .ok (goLookupBool h c name).1) := by
  refine ⟨?_, ?_, ?_, ?_, ?_, ?_, ?_, ?_⟩ <;>
    [cases hx : lookupInt32 h c name; cases hx : lookupInt64 h c name;
     cases hx : lookupString h c name; cases hx : lookupBool h c name;
     cases hx : lookupInt32 h c name; cases hx : lookupInt64 h c name;
     cases hx : lookupString h c name; cases hx : lookupBool h c name] <;>
    simp [goLookupInt32, goLookupInt64, goLookupString, goLookupBool, goPair, hx]

/-- C10 witness for the amended claim: on an empty aggregate every lookup
fails and the returned value is the zero value; on an aggregate storing
`"7"` the lookups succeed with nil error and the stored value. -/
theorem c10_zero_value_on_error_witness :
    (goLookupInt32 (⟨[]⟩ : Heap) (⟨none, none, none, none, none⟩ : Config) "k").1 = 0 ∧
    (goLookupInt64 (⟨[]⟩ : Heap) (⟨none, none, none, none, none⟩ : Config) "k").1 = 0 ∧
    (goLookupString (⟨[]⟩ : Heap) (⟨none, none, none, none, none⟩ : Config) "k").1 = "" ∧
    (goLookupBool (⟨[]⟩ : Heap) (⟨none, none, none, none, none⟩ : Config) "k").1 = false ∧
    lookupInt32 (⟨[(1, ⟨[("k", ["7"])]⟩)]⟩ : Heap) (⟨some 1, none, none, none, none⟩ : Config) "k" =
      .ok (goLookupInt32 ⟨[(1, ⟨[("k", ["7"])]⟩)]⟩ ⟨some 1, none, none, none, none⟩ "k").1 ∧
    lookupString (⟨[(1, ⟨[("k", ["7"])]⟩)]⟩ : Heap) (⟨some 1, none, none, none, none⟩ : Config) "k" =
      .ok (goLookupString ⟨[(1, ⟨[("k", ["7"])]⟩)]⟩ ⟨some 1, none, none, none, none⟩ "k").1 := by
  have t1 := c10_zero_value_on_error ⟨[]⟩ ⟨none, none, none, none, none⟩ "k"
  have t2 := c10_zero_value_on_error ⟨[(1, ⟨[("k", ["7"])]⟩)]⟩ ⟨some 1, none, none, none, none⟩ "k"
  exact ⟨t1.1 (by decide), t1.2.1 (by decide), t1.2.2.1 (by decide), t1.2.2.2.1 (by decide),
    t2.2.2.2.2.1 (by decide), t2.2.2.2.2.2.2.1 (by decide)⟩
